import Mathlib

/-!
Shallow embedding of `src/armageddon/solver.py`: a meteoroid atmospheric-entry
simulator.  Numeric values are modelled as exact rationals; the transcendental
functions supplied by numpy (`np.cos`, `np.sin`, square root via `** 0.5`,
`np.exp`) and the constant `np.pi` are abstract parameters collected in
`NumFuns`, so every definition stays executable.
-/

set_option maxRecDepth 10000

/-- The six-component state vector handled by the integrators, in the order
used by the source: `[angle, radius, altitude, velocity, mass, distance]`. -/
structure SVec where
  theta : ℚ
  r : ℚ
  z : ℚ
  v : ℚ
  m : ℚ
  x : ℚ
deriving DecidableEq, Repr

instance : Inhabited SVec := ⟨⟨0, 0, 0, 0, 0, 0⟩⟩

instance : Add SVec :=
  ⟨fun a b => ⟨a.theta + b.theta, a.r + b.r, a.z + b.z, a.v + b.v, a.m + b.m, a.x + b.x⟩⟩

/-- Scalar multiplication of a state vector (numpy scalar-times-array). -/
def SVec.scale (c : ℚ) (s : SVec) : SVec :=
  ⟨c * s.theta, c * s.r, c * s.z, c * s.v, c * s.m, c * s.x⟩

/-- One row of the accumulated trajectory: state vector plus elapsed time
(the source keeps a parallel `alltimestep` list). -/
structure Row where
  s : SVec
  t : ℚ
deriving DecidableEq, Repr

instance : Inhabited Row := ⟨⟨default, 0⟩⟩

/-- The planetary constants of `Planet.__init__` together with the chosen
atmospheric-density function `rhoa`. -/
structure Planet where
  Cd : ℚ
  Ch : ℚ
  Q : ℚ
  Cl : ℚ
  alpha : ℚ
  Rp : ℚ
  g : ℚ
  H : ℚ
  rho0 : ℚ
  rhoa : ℚ → ℚ

/-- Abstract stand-ins for the numpy real functions and `np.pi` used by the
source; in an idealised run they are the corresponding real functions. -/
structure NumFuns where
  pi : ℚ
  cos : ℚ → ℚ
  sin : ℚ → ℚ
  sqrt : ℚ → ℚ
  exp : ℚ → ℚ

/-- Everything `self` carries during one solve: the planet, the numeric
functions, and the per-run `strength` and `density` set by
`solve_atmospheric_entry`. -/
structure Sim where
  pl : Planet
  nf : NumFuns
  strength : ℚ
  density : ℚ

/-- The burst-index update performed inside the derivative calculator
(`if ram > self.strength: if self.burstpoint == -1: self.burstpoint = len(...)`). -/
def burstUpdate (strength ram : ℚ) (len bp : ℤ) : ℤ :=
  if strength < ram then (if bp = -1 then len else bp) else bp

/-- `calculator_rk4` of the source: the six derivatives at a given state,
together with the burst-point side effect.  `len` is `len(self.distance)` at
the time of the call.  The forward-Euler loop of
`solve_atmospheric_entry_FE` evaluates exactly these expressions inline. -/
def calculator_rk4 (c : Sim) (s : SVec) (bp len : ℤ) : SVec × ℤ :=
  let cos_theta := c.nf.cos s.theta
  let sin_theta := c.nf.sin s.theta
  let area := c.nf.pi * s.r ^ 2
  let rhoa := c.pl.rhoa s.z
  let rhoAv := rhoa * area * s.v
  let dvdt := -c.pl.Cd * rhoAv * s.v / (2 * s.m) + c.pl.g * sin_theta
  let dmdt := -c.pl.Ch * rhoAv * s.v ^ 2 / (2 * c.pl.Q)
  let dthetadt := -c.pl.Cl * rhoAv / (2 * s.m) + c.pl.g * cos_theta / s.v
      - s.v * cos_theta / (c.pl.Rp + s.z)
  let dzdt := -s.v * sin_theta
  let dxdt := s.v * cos_theta / (1 + s.z / c.pl.Rp)
  let ram := c.pl.rhoa s.z * s.v ^ 2
  if c.strength < ram then
    let drdt := c.nf.sqrt (7 * rhoa * c.pl.alpha / 2 / c.density) * s.v
    (⟨dthetadt, drdt, dzdt, dvdt, dmdt, dxdt⟩, if bp = -1 then len else bp)
  else
    (⟨dthetadt, 0, dzdt, dvdt, dmdt, dxdt⟩, bp)

/-- `RK4_helper`: the four-stage Runge-Kutta increment, threading the
burst-point through the four sequential calculator calls. -/
def RK4_helper (c : Sim) (dt : ℚ) (s : SVec) (bp len : ℤ) : SVec × ℤ :=
  let k1 := calculator_rk4 c s bp len
  let k2 := calculator_rk4 c (s + SVec.scale (1/2 * dt) k1.1) k1.2 len
  let k3 := calculator_rk4 c (s + SVec.scale (1/2 * dt) k2.1) k2.2 len
  let k4 := calculator_rk4 c (s + SVec.scale dt k3.1) k3.2 len
  (SVec.scale (dt / 6) (k1.1 + SVec.scale 2 k2.1 + SVec.scale 2 k3.1 + k4.1), k4.2)

/-- One RK4 step: current state plus the `RK4_helper` increment. -/
def stepRK4 (c : Sim) (dt : ℚ) (s : SVec) (bp len : ℤ) : SVec × ℤ :=
  let ch := RK4_helper c dt s bp len
  (s + ch.1, ch.2)

/-- One forward-Euler step of `solve_atmospheric_entry_FE`: the loop body
evaluates the same derivative expressions as `calculator_rk4` (they are
written out verbatim in the source) and advances by `dt` times them. -/
def stepFE (c : Sim) (dt : ℚ) (s : SVec) (bp len : ℤ) : SVec × ℤ :=
  let d := calculator_rk4 c s bp len
  (s + SVec.scale dt d.1, d.2)

/-- The stopping policy checked after each completed step:
`altitude <= 0 or mass <= 0 or radius <= 0 or velocity <= 0 or
altitude >= init_altitude`. -/
def stopCond (initAlt : ℚ) (s : SVec) : Bool :=
  decide (s.z ≤ 0) || decide (s.m ≤ 0) || decide (s.r ≤ 0) ||
    decide (s.v ≤ 0) || decide (initAlt ≤ s.z)

/-- The `while True` stepping loop shared by both backends, made total with a
fuel parameter: append a step, stop when the stopping policy fires on the
state just produced.  Returns the appended rows (terminating row included)
and the final burst-point, or `none` when fuel runs out. -/
def entryLoop (step : SVec → ℤ → ℤ → SVec × ℤ) (initAlt dt : ℚ) :
    Nat → Row → ℤ → ℤ → Option (List Row × ℤ)
  | 0, _, _, _ => none
  | fuel + 1, row, bp, len =>
    let n := step row.s bp len
    let row' : Row := ⟨n.1, row.t + dt⟩
    if stopCond initAlt n.1 then some ([row'], n.2)
    else
      match entryLoop step initAlt dt fuel row' n.2 (len + 1) with
      | none => none
      | some (rest, bpf) => some (row' :: rest, bpf)

/-- Backend selection of `solve_atmospheric_entry`: `"FE"` and `"RK4"` are
accepted; any other name falls back to forward Euler after the caught
`NotImplementedError`, with the second component recording that the
configuration warning was printed. -/
def selectBackend (backend : String) : (Sim → ℚ → SVec → ℤ → ℤ → SVec × ℤ) × Bool :=
  if backend = "FE" then (stepFE, false)
  else if backend = "RK4" then (stepRK4, false)
  else (stepFE, true)

/-- The full internal run of `solve_atmospheric_entry`: angle conversion,
`self.strength`/`self.density`/`self.burstpoint = -1` initialisation, initial
lists (mass `4/3*pi*r^3*density`, distance 0, time 0, `len(self.distance)=1`),
then the selected stepping loop.  Returns the complete accumulated rows
(initial row first, terminating row last) and the final burst-point. -/
def solve_run (pl : Planet) (nf : NumFuns)
    (radius velocity density strength angle0 init_altitude dt : ℚ)
    (radians : Bool) (backend : String) (fuel : Nat) : Option (List Row × ℤ) :=
  let angle := if radians then angle0 else angle0 / 180 * nf.pi
  let c : Sim := ⟨pl, nf, strength, density⟩
  let step := (selectBackend backend).1
  let r0 : Row := ⟨⟨angle, radius, init_altitude, velocity,
      4/3 * nf.pi * radius ^ 3 * density, 0⟩, 0⟩
  (entryLoop (step c dt) init_altitude dt fuel r0 (-1) 1).map
    (fun rb => (r0 :: rb.1, rb.2))

/-- The DataFrame returned to callers, as parallel column lists. -/
structure DataFrame where
  velocity : List ℚ
  mass : List ℚ
  angle : List ℚ
  altitude : List ℚ
  distance : List ℚ
  radius : List ℚ
  time : List ℚ
deriving DecidableEq, Repr

instance : Inhabited DataFrame := ⟨⟨[], [], [], [], [], [], []⟩⟩

/-- Build the returned DataFrame from the accumulated rows: every column is
sliced `[:-1]`, and with degree input the angle column is mapped back through
`i / np.pi * 180`. -/
def mkDF (nf : NumFuns) (radians : Bool) (rows : List Row) : DataFrame :=
  let kept := rows.dropLast
  { velocity := kept.map (fun q => q.s.v)
    mass := kept.map (fun q => q.s.m)
    angle := kept.map (fun q => if radians then q.s.theta else q.s.theta / nf.pi * 180)
    altitude := kept.map (fun q => q.s.z)
    distance := kept.map (fun q => q.s.x)
    radius := kept.map (fun q => q.s.r)
    time := kept.map (fun q => q.t) }

/-- `solve_atmospheric_entry`: run the solver and return the DataFrame of all
steps up to but excluding the terminating one. -/
def solve_atmospheric_entry (pl : Planet) (nf : NumFuns)
    (radius velocity density strength angle0 init_altitude dt : ℚ)
    (radians : Bool) (backend : String) (fuel : Nat) : Option DataFrame :=
  (solve_run pl nf radius velocity density strength angle0 init_altitude dt
      radians backend fuel).map (fun rb => mkDF nf radians rb.1)

/-- The energy-profile DataFrame: the seven trajectory columns plus the
inserted `dedz` column. -/
structure DataFrameE where
  velocity : List ℚ
  mass : List ℚ
  angle : List ℚ
  altitude : List ℚ
  distance : List ℚ
  radius : List ℚ
  time : List ℚ
  dedz : List ℚ
deriving DecidableEq, Repr

/-- `calculate_energy`: kinetic energy `0.5*mass*velocity**2` per row, the
difference quotient `(KE[1:] - KE[:-1]) / (altitude[:-1] - altitude[1:])`
scaled by `4.184e9`, a `0` inserted in front, and the negated result added as
the `dedz` column. -/
def calculate_energy (res : DataFrame) : DataFrameE :=
  let dedz0 := List.zipWith (fun m v => 1/2 * m * v ^ 2) res.mass res.velocity
  let temp := List.zipWith (fun p q => (p.1 - p.2) / (q.1 - q.2))
      (dedz0.tail.zip dedz0) (res.altitude.zip res.altitude.tail)
  let temp2 := temp.map (fun t => t / 4184000000)
  { velocity := res.velocity, mass := res.mass, angle := res.angle,
    altitude := res.altitude, distance := res.distance, radius := res.radius,
    time := res.time, dedz := (0 :: temp2).map (fun t => -t) }

/-- First-occurrence argmax over a head-seeded list, as `pandas.idxmax`
computes it: the value together with the first index attaining it. -/
def argmaxFst : ℚ → List ℚ → Nat × ℚ
  | x, [] => (0, x)
  | x, y :: ys =>
    let jm := argmaxFst y ys
    if x < jm.2 then (jm.1 + 1, jm.2) else (0, x)

/-- `result['dedz'].idxmax()`: first index of the maximum entry. -/
def idxmax (l : List ℚ) : Nat :=
  match l with
  | [] => 0
  | x :: xs => (argmaxFst x xs).1

/-- The outcome dictionary produced by `analyse_outcome`. -/
structure OutcomeRec where
  outcome : String
  burst_peak_dedz : ℚ
  burst_altitude : ℚ
  burst_distance : ℚ
  burst_energy : ℚ
deriving DecidableEq, Repr

/-- `analyse_outcome`: peak of `dedz` (first occurrence), energies in
kilotons (`/ 4.184e12`), Cratering when the peak index is the last row
(then `burst_altitude = 0`, `burst_energy = max(Eb, E0 - Eb)`), otherwise
Airburst (`burst_altitude` at the peak, `burst_energy = E0 - Eb`). -/
def analyse_outcome (res : DataFrameE) : OutcomeRec :=
  let burstidx := idxmax res.dedz
  let initial_energy := 1/2 * res.mass.getD 0 0 * (res.velocity.getD 0 0) ^ 2 / 4184000000000
  let burstenergy := 1/2 * res.mass.getD burstidx 0 * (res.velocity.getD burstidx 0) ^ 2 / 4184000000000
  if burstidx = res.dedz.length - 1 then
    { outcome := "Cratering"
      burst_peak_dedz := res.dedz.getD burstidx 0
      burst_altitude := 0
      burst_distance := res.distance.getD burstidx 0
      burst_energy := max burstenergy (initial_energy - burstenergy) }
  else
    { outcome := "Airburst"
      burst_peak_dedz := res.dedz.getD burstidx 0
      burst_altitude := res.altitude.getD burstidx 0
      burst_distance := res.distance.getD burstidx 0
      burst_energy := initial_energy - burstenergy }

/-- The closure returned by the active `create_tabular_density`: a fixed
12th-degree polynomial in the altitude, with the coefficients hard-coded in
the source. -/
def tabular_density (x : ℚ) : ℚ :=
  1225/10^3 - 9910220744570666/10^20 * x + 10633480000486046/10^25 * x ^ 2
    + 4098166536722918/10^29 * x ^ 3 + 10285099346022191/10^33 * x ^ 4
    - 1045342967336349/10^36 * x ^ 5 + 4396108172607025/10^41 * x ^ 6
    - 10712304649951357/10^46 * x ^ 7 + 1657059541531033/10^50 * x ^ 8
    - 16597297898210513/10^56 * x ^ 9 + 10474179820376901/10^61 * x ^ 10
    - 37975400341113775/10^67 * x ^ 11 + 6044604125297617/10^72 * x ^ 12

/-- `create_tabular_density`: the loaded table columns `X` (altitudes) and
`Y` (densities) are parsed and then ignored by the returned closure, which
always evaluates the hard-coded polynomial. -/
def create_tabular_density (X Y : List ℚ) : ℚ → ℚ :=
  fun x =>
    let _ := X
    let _ := Y
    tabular_density x

/-- Linear interpolation step between successive table entries, used by the
spec-side tabular-density contract. -/
def tabular_interp_go (x : ℚ) : ℚ → ℚ → List ℚ → List ℚ → ℚ
  | xa, ya, xb :: xs, yb :: ys =>
    if x ≤ xb then (x - xa) / (xb - xa) * (yb - ya) + ya
    else tabular_interp_go x xb yb xs ys
  | _, ya, _, _ => ya

/-- Modelled from the spec (section 4.1), which itself documents the
commented-out original implementation: piecewise-linear interpolation between
the two bracketing table entries, and density `0` for altitude beyond the
last tabulated entry. -/
def tabular_density_spec (X Y : List ℚ) (x : ℚ) : ℚ :=
  match X, Y with
  | x0 :: xs, y0 :: ys =>
    if (x0 :: xs).getLastD x0 < x then 0
    else if x ≤ x0 then y0
    else tabular_interp_go x x0 y0 xs ys
  | _, _ => 0

/-- The atmosphere selection of `Planet.__init__`: exponential
`rho0 * exp(-z/H)`, tabular (requires the loaded table, whose load failure is
not caught by the `except NotImplementedError` handler and is therefore
fatal), constant `rho0`, and for any other name the caught
`NotImplementedError` produces the constant-density fallback with a printed
warning (the Boolean component). -/
def Planet.init (nf : NumFuns) (atmos_func : String)
    (tableData : Except String (List ℚ × List ℚ))
    (Cd Ch Q Cl alpha Rp g H rho0 : ℚ) : Except String (Planet × Bool) :=
  if atmos_func = "exponential" then
    .ok ({ Cd := Cd, Ch := Ch, Q := Q, Cl := Cl, alpha := alpha, Rp := Rp,
           g := g, H := H, rho0 := rho0,
           rhoa := fun x => rho0 * nf.exp (-x / H) }, false)
  else if atmos_func = "tabular" then
    match tableData with
    | .ok td => .ok ({ Cd := Cd, Ch := Ch, Q := Q, Cl := Cl, alpha := alpha,
                       Rp := Rp, g := g, H := H, rho0 := rho0,
                       rhoa := create_tabular_density td.1 td.2 }, false)
    | .error e => .error e
  else if atmos_func = "constant" then
    .ok ({ Cd := Cd, Ch := Ch, Q := Q, Cl := Cl, alpha := alpha, Rp := Rp,
           g := g, H := H, rho0 := rho0, rhoa := fun _ => rho0 }, false)
  else
    .ok ({ Cd := Cd, Ch := Ch, Q := Q, Cl := Cl, alpha := alpha, Rp := Rp,
           g := g, H := H, rho0 := rho0, rhoa := fun _ => rho0 }, true)

/-- First `len`-value among the derivative evaluations whose ram pressure
exceeds the strength, sentinel `-1` when none does. -/
def firstExceed (strength : ℚ) (evals : List (ℚ × ℤ)) : ℤ :=
  match evals.find? (fun e => decide (strength < e.1)) with
  | some e => e.2
  | none => -1

/-- Kinetic energy of row `i` of a DataFrame, as the claims state it. -/
def keAt (df : DataFrame) (i : Nat) : ℚ :=
  1/2 * df.mass.getD i 0 * (df.velocity.getD i 0) ^ 2

/-! ### Component lemmas for the state-vector arithmetic -/

@[simp] theorem SVec.add_def (a b : SVec) :
    a + b = ⟨a.theta + b.theta, a.r + b.r, a.z + b.z, a.v + b.v, a.m + b.m, a.x + b.x⟩ := rfl

@[simp] theorem SVec.add_theta (a b : SVec) : (a + b).theta = a.theta + b.theta := rfl

@[simp] theorem SVec.add_r (a b : SVec) : (a + b).r = a.r + b.r := rfl

@[simp] theorem SVec.add_z (a b : SVec) : (a + b).z = a.z + b.z := rfl

@[simp] theorem SVec.add_v (a b : SVec) : (a + b).v = a.v + b.v := rfl

@[simp] theorem SVec.add_m (a b : SVec) : (a + b).m = a.m + b.m := rfl

@[simp] theorem SVec.add_x (a b : SVec) : (a + b).x = a.x + b.x := rfl

@[simp] theorem SVec.scale_theta (c : ℚ) (s : SVec) : (SVec.scale c s).theta = c * s.theta := rfl

@[simp] theorem SVec.scale_r (c : ℚ) (s : SVec) : (SVec.scale c s).r = c * s.r := rfl

@[simp] theorem SVec.scale_z (c : ℚ) (s : SVec) : (SVec.scale c s).z = c * s.z := rfl

@[simp] theorem SVec.scale_v (c : ℚ) (s : SVec) : (SVec.scale c s).v = c * s.v := rfl

@[simp] theorem SVec.scale_m (c : ℚ) (s : SVec) : (SVec.scale c s).m = c * s.m := rfl

@[simp] theorem SVec.scale_x (c : ℚ) (s : SVec) : (SVec.scale c s).x = c * s.x := rfl

/-! ### Claim C10 -/

/-- Claim C10: `calculate_energy` returns the caller's table with the `dedz`
column added while every pre-existing column (velocity, mass, angle,
altitude, distance, radius, time) is left unchanged; in this functional
model the in-place update is rendered as exact preservation of all seven
original columns in the returned table. -/
theorem calculate_energy_preserves_columns (res : DataFrame) :
    (calculate_energy res).velocity = res.velocity ∧
    (calculate_energy res).mass = res.mass ∧
    (calculate_energy res).angle = res.angle ∧
    (calculate_energy res).altitude = res.altitude ∧
    (calculate_energy res).distance = res.distance ∧
    (calculate_energy res).radius = res.radius ∧
    (calculate_energy res).time = res.time :=
  ⟨rfl, rfl, rfl, rfl, rfl, rfl, rfl⟩

/-! ### Claim C5 -/

/-- Claim C5 counterexample: the name `"Euler"` is not an accepted backend
name; it takes the unsupported-name fallback path, so the configuration
warning flag is raised (the claim asserts `"Euler"` is accepted without
triggering that path). -/
theorem selectBackend_euler_warns : (selectBackend "Euler").2 = true := by
  decide

/-- Claim C5 (amended): the backend selector accepts exactly the two names
`"FE"` and `"RK4"`; `"FE"` selects the explicit Euler scheme and `"RK4"` the
RK4 scheme, both without warning, while every other name (including
`"Euler"`) falls back to the explicit Euler scheme with a configuration
warning. -/
theorem selectBackend_spec :
    selectBackend "FE" = (stepFE, false) ∧
    selectBackend "RK4" = (stepRK4, false) ∧
    ∀ s : String, s ≠ "FE" → s ≠ "RK4" → selectBackend s = (stepFE, true) := by
  refine ⟨?_, ?_, ?_⟩
  · unfold selectBackend
    rw [if_pos rfl]
  · unfold selectBackend
    rw [if_neg (by decide), if_pos rfl]
  · intro s h1 h2
    unfold selectBackend
    rw [if_neg h1, if_neg h2]

/-- Witness for the amended claim C5, at the concrete unsupported name
`"Euler"`. -/
theorem selectBackend_spec_witness : selectBackend "Euler" = (stepFE, true) :=
  selectBackend_spec.2.2 "Euler" (by decide) (by decide)

/-! ### Claim C6 -/

/-- Claim C6: an atmosphere-model name outside
`{"exponential", "tabular", "constant"}` is non-fatal — construction succeeds
with the warning flag raised and the density function constantly `rho0` —
whereas `"tabular"` with a failed table load is fatal: the load error is
surfaced to the caller and no planet (hence no fallback density function) is
produced. -/
theorem planet_init_error_handling :
    (∀ (nf : NumFuns) (name : String) (td : Except String (List ℚ × List ℚ))
        (Cd Ch Q Cl alpha Rp g H rho0 : ℚ),
      name ≠ "exponential" → name ≠ "tabular" → name ≠ "constant" →
      Planet.init nf name td Cd Ch Q Cl alpha Rp g H rho0 =
        .ok ({ Cd := Cd, Ch := Ch, Q := Q, Cl := Cl, alpha := alpha, Rp := Rp,
               g := g, H := H, rho0 := rho0, rhoa := fun _ => rho0 }, true)) ∧
    (∀ (nf : NumFuns) (e : String) (Cd Ch Q Cl alpha Rp g H rho0 : ℚ),
      Planet.init nf "tabular" (.error e) Cd Ch Q Cl alpha Rp g H rho0 =
        .error e) := by
  constructor
  · intro nf name td Cd Ch Q Cl alpha Rp g H rho0 h1 h2 h3
    unfold Planet.init
    rw [if_neg h1, if_neg h2, if_neg h3]
  · intro nf e Cd Ch Q Cl alpha Rp g H rho0
    unfold Planet.init
    rw [if_neg (by decide), if_pos rfl]

/-- Witness for claim C6 at a concrete unknown name and a concrete load
error. -/
theorem planet_init_error_handling_witness :
    Planet.init ⟨3, fun _ => 0, fun _ => 1, fun _ => 0, fun _ => 1⟩
        "polynomial" (.ok ([], [])) 1 1 1 1 1 1 1 1 1 =
      .ok ({ Cd := 1, Ch := 1, Q := 1, Cl := 1, alpha := 1, Rp := 1,
             g := 1, H := 1, rho0 := 1, rhoa := fun _ => 1 }, true) ∧
    Planet.init ⟨3, fun _ => 0, fun _ => 1, fun _ => 0, fun _ => 1⟩
        "tabular" (.error "table file missing") 1 1 1 1 1 1 1 1 1 =
      .error "table file missing" :=
  ⟨planet_init_error_handling.1 _ "polynomial" _ 1 1 1 1 1 1 1 1 1
      (by decide) (by decide) (by decide),
    planet_init_error_handling.2 _ "table file missing" 1 1 1 1 1 1 1 1 1⟩

/-! ### Claim C4 -/

/-- Claim C4 is right about the intended contract (the function's own
docstring says the density comes from the tabulated values) but the active
code is wrong: the returned closure ignores the loaded table entirely and
evaluates a hard-coded 12th-degree polynomial, so for an altitude beyond the
last tabulated entry it returns a nonzero polynomial value instead of the
documented 0 obtained by the table-based interpolation. -/
theorem create_tabular_density_ignores_table :
    create_tabular_density [0, 10] [1225/1000, 11/10] 20 ≠ 0 ∧
    tabular_density_spec [0, 10] [1225/1000, 11/10] 20 = 0 ∧
    ∀ (X Y X' Y' : List ℚ) (x : ℚ),
      create_tabular_density X Y x = create_tabular_density X' Y' x := by
  refine ⟨?_, ?_, fun _ _ _ _ _ => rfl⟩
  · norm_num [create_tabular_density, tabular_density]
  · norm_num [tabular_density_spec, List.getLastD]

/-! ### Claim C8 -/

/-- Folding the burst-point update over further derivative evaluations never
changes an already-set (non-sentinel) burst point. -/
theorem burstUpdate_foldl_const (strength : ℚ) :
    ∀ (evals : List (ℚ × ℤ)) (bp : ℤ), bp ≠ -1 →
      evals.foldl (fun b e => burstUpdate strength e.1 e.2 b) bp = bp := by
  intro evals
  induction evals with
  | nil => intro bp _; rfl
  | cons e es ih =>
    intro bp hbp
    have hupd : burstUpdate strength e.1 e.2 bp = bp := by
      unfold burstUpdate
      rw [if_neg hbp, ite_self]
    simp only [List.foldl_cons, hupd]
    exact ih bp hbp

/-- Claim C8: the burst index is governed by the guarded update
`if ram > strength: if burstpoint == -1: burstpoint = len(distance)` —
(1) a non-sentinel value is never overwritten; (2) `calculator_rk4` applies
exactly this update to the threaded burst point; (3) over any run's sequence
of derivative evaluations (each contributing its ram pressure and the
current `len(self.distance)`, which is never the sentinel `-1`), starting
from the sentinel `-1` the final burst point is the `len` recorded at the
first evaluation whose ram pressure exceeds the strength, and stays `-1`
when no evaluation exceeds it. -/
theorem burstpoint_set_once :
    (∀ (strength ram : ℚ) (len bp : ℤ), bp ≠ -1 →
      burstUpdate strength ram len bp = bp) ∧
    (∀ (c : Sim) (s : SVec) (bp len : ℤ),
      (calculator_rk4 c s bp len).2 =
        burstUpdate c.strength (c.pl.rhoa s.z * s.v ^ 2) len bp) ∧
    (∀ (strength : ℚ) (evals : List (ℚ × ℤ)), (∀ e ∈ evals, e.2 ≠ -1) →
      evals.foldl (fun b e => burstUpdate strength e.1 e.2 b) (-1) =
        firstExceed strength evals) := by
  refine ⟨?_, ?_, ?_⟩
  · intro strength ram len bp hbp
    unfold burstUpdate
    rw [if_neg hbp, ite_self]
  · intro c s bp len
    simp only [calculator_rk4, burstUpdate]
    split <;> rfl
  · intro strength evals
    induction evals with
    | nil => intro _; rfl
    | cons e es ih =>
      intro hlen
      simp only [List.foldl_cons, firstExceed, List.find?]
      by_cases hex : strength < e.1
      · have h1 : burstUpdate strength e.1 e.2 (-1) = e.2 := by
          unfold burstUpdate
          rw [if_pos hex, if_pos rfl]
        rw [h1, burstUpdate_foldl_const strength es e.2 (hlen e (by simp)),
          decide_eq_true hex]
      · have h1 : burstUpdate strength e.1 e.2 (-1) = -1 := by
          unfold burstUpdate
          rw [if_neg hex]
        rw [h1, decide_eq_false hex]
        have := ih (fun q hq => hlen q (by simp [hq]))
        simpa [firstExceed] using this

/-! ### Claim C1 -/

/-- A two-row trajectory table exercising the sign of the `dedz` formula:
velocity `[1, 3]`, mass `[2, 2]`, altitude `[2, 1]`. -/
def c1df : DataFrame :=
  ⟨[1, 3], [2, 2], [0, 0], [2, 1], [0, 0], [0, 0], [0, 0]⟩

/-- Claim C1 counterexample: on the two-row table `c1df` (kinetic energies
`[1, 9]`, altitudes `[2, 1]`) the code's `dedz` entry at index 1 is
`-8/4.184e9`, whereas the claim's formula
`-(KE[1]-KE[0]) / (altitude[1]-altitude[0]) / 4.184e9` gives `+8/4.184e9`:
the claim's difference quotient has the sign of the altitude difference
reversed relative to the code. -/
theorem calculate_energy_sign_cex :
    (calculate_energy c1df).dedz.getD 1 0 ≠
      -((keAt c1df 1 - keAt c1df 0) /
          (c1df.altitude.getD 1 0 - c1df.altitude.getD 0 0)) / 4184000000 := by
  norm_num [c1df, calculate_energy, keAt, List.zipWith, List.tail, List.zip,
    List.getD_cons_zero, List.getD_cons_succ]

/-- Claim C1 (amended): for every trajectory table with at least one row,
`calculate_energy` adds a `dedz` column of the same length whose first entry
is exactly 0 and whose entry at index `i+1` equals
`-(KE[i+1]-KE[i]) / (altitude[i]-altitude[i+1])` divided by `4.184e9`, with
`KE[i] = 0.5 * mass[i] * velocity[i]^2` (the claim's denominator
`altitude[i+1]-altitude[i]` has the sign reversed). -/
theorem calculate_energy_dedz_spec :
    ∀ (df : DataFrame) (n : Nat),
      df.mass.length = n → df.velocity.length = n → df.altitude.length = n →
      1 ≤ n →
      (calculate_energy df).dedz.length = n ∧
      (calculate_energy df).dedz.getD 0 0 = 0 ∧
      ∀ i : Nat, i + 1 < n →
        (calculate_energy df).dedz.getD (i + 1) 0 =
          -((keAt df (i + 1) - keAt df i) /
              (df.altitude.getD i 0 - df.altitude.getD (i + 1) 0)) / 4184000000 := by
  intro df n hm hv ha hn
  have hke : (List.zipWith (fun m v => 1/2 * m * v ^ 2) df.mass df.velocity).length = n := by
    rw [List.length_zipWith, hm, hv, min_self]
  have hlen : (calculate_energy df).dedz.length = n := by
    simp only [calculate_energy, List.length_map, List.length_cons,
      List.length_zipWith, List.length_zip, List.length_tail, hke, ha]
    omega
  refine ⟨hlen, ?_, ?_⟩
  · simp [calculate_energy]
  · intro i hi
    have hi' : i + 1 < (calculate_energy df).dedz.length := by omega
    have hiA : i + 1 < (List.zipWith (fun m v => 1/2 * m * v ^ 2) df.mass df.velocity).length := by
      omega
    have him : i + 1 < df.mass.length := by omega
    have hivel : i + 1 < df.velocity.length := by omega
    have hia : i + 1 < df.altitude.length := by omega
    rw [List.getD_eq_getElem _ _ hi']
    simp only [calculate_energy] at hi' ⊢
    simp only [List.getElem_map, List.getElem_cons_succ, List.getElem_zipWith,
      List.getElem_zip, List.getElem_tail]
    simp only [keAt]
    rw [List.getD_eq_getElem _ _ him, List.getD_eq_getElem _ _ hivel,
      List.getD_eq_getElem _ _ hia,
      List.getD_eq_getElem _ _ (by omega : i < df.mass.length),
      List.getD_eq_getElem _ _ (by omega : i < df.velocity.length),
      List.getD_eq_getElem _ _ (by omega : i < df.altitude.length)]
    ring

/-- Witness for the amended claim C1 on the concrete two-row table `c1df`. -/
theorem calculate_energy_dedz_spec_witness :
    (calculate_energy c1df).dedz.length = 2 ∧
    (calculate_energy c1df).dedz.getD 0 0 = 0 ∧
    (calculate_energy c1df).dedz.getD 1 0 =
      -((keAt c1df 1 - keAt c1df 0) /
          (c1df.altitude.getD 0 0 - c1df.altitude.getD 1 0)) / 4184000000 := by
  obtain ⟨h1, h2, h3⟩ := calculate_energy_dedz_spec c1df 2
    (by norm_num [c1df]) (by norm_num [c1df]) (by norm_num [c1df]) (by norm_num)
  exact ⟨h1, h2, h3 0 (by norm_num)⟩

/-! ### Claim C2 -/

/-- The index returned by `argmaxFst` is in range. -/
theorem argmaxFst_fst_lt (x : ℚ) (xs : List ℚ) :
    (argmaxFst x xs).1 < xs.length + 1 := by
  induction xs generalizing x with
  | nil => simp [argmaxFst]
  | cons y ys ih =>
    simp only [argmaxFst, List.length_cons]
    split
    · have := ih y
      omega
    · omega

/-- The value returned by `argmaxFst` is the entry at the returned index. -/
theorem argmaxFst_getD (x : ℚ) (xs : List ℚ) :
    (x :: xs).getD (argmaxFst x xs).1 0 = (argmaxFst x xs).2 := by
  induction xs generalizing x with
  | nil => simp [argmaxFst]
  | cons y ys ih =>
    simp only [argmaxFst]
    split
    · simpa using ih y
    · simp

/-- Every entry is bounded by the `argmaxFst` value. -/
theorem argmaxFst_le (x : ℚ) (xs : List ℚ) :
    ∀ k, k < xs.length + 1 → (x :: xs).getD k 0 ≤ (argmaxFst x xs).2 := by
  induction xs generalizing x with
  | nil =>
    intro k hk
    have hk0 : k = 0 := by simpa using Nat.lt_one_iff.mp (by simpa using hk)
    subst hk0
    simp [argmaxFst]
  | cons y ys ih =>
    intro k hk
    simp only [argmaxFst]
    split
    · next hlt =>
      cases k with
      | zero => simpa using le_of_lt hlt
      | succ k' =>
        have := ih y k' (by simpa using hk)
        simpa using this
    · next hge =>
      cases k with
      | zero => simp
      | succ k' =>
        have h1 := ih y k' (by simpa using hk)
        have h2 : (argmaxFst y ys).2 ≤ x := le_of_not_lt hge
        simp only [List.getD_cons_succ]
        exact le_trans (by simpa using h1) h2

/-- Entries strictly before the `argmaxFst` index are strictly below the
maximum: the returned index is the first occurrence of the maximum. -/
theorem argmaxFst_first (x : ℚ) (xs : List ℚ) :
    ∀ k, k < (argmaxFst x xs).1 → (x :: xs).getD k 0 < (argmaxFst x xs).2 := by
  induction xs generalizing x with
  | nil => simp [argmaxFst]
  | cons y ys ih =>
    intro k hk
    simp only [argmaxFst] at hk ⊢
    split
    · next hlt =>
      rw [if_pos hlt] at hk
      cases k with
      | zero => simpa using hlt
      | succ k' =>
        have := ih y k' (by omega)
        simpa using this
    · next hge =>
      rw [if_neg hge] at hk
      omega

/-- Claim C2: `analyse_outcome` locates the first index of the maximal `dedz`
entry; the outcome is `"Cratering"` exactly when that index is the last row,
with `burst_altitude = 0` and `burst_energy = max(Eb, E0 - Eb)`, and
`"Airburst"` otherwise, with the altitude at the peak and
`burst_energy = E0 - Eb`, where `E0`/`Eb` are `0.5*mass*velocity^2/4.184e12`
at row 0 and at the peak; `burst_distance` and `burst_peak_dedz` are the
distance and `dedz` entries at the peak. -/
theorem analyse_outcome_spec :
    ∀ (res : DataFrameE), res.dedz ≠ [] →
      idxmax res.dedz < res.dedz.length ∧
      (∀ k, k < res.dedz.length →
        res.dedz.getD k 0 ≤ res.dedz.getD (idxmax res.dedz) 0) ∧
      (∀ k, k < idxmax res.dedz →
        res.dedz.getD k 0 < res.dedz.getD (idxmax res.dedz) 0) ∧
      ((analyse_outcome res).outcome = "Cratering" ↔
        idxmax res.dedz = res.dedz.length - 1) ∧
      ((analyse_outcome res).outcome = "Airburst" ↔
        ¬ idxmax res.dedz = res.dedz.length - 1) ∧
      (idxmax res.dedz = res.dedz.length - 1 →
        (analyse_outcome res).burst_altitude = 0 ∧
        (analyse_outcome res).burst_energy =
          max (1/2 * res.mass.getD (idxmax res.dedz) 0 *
                (res.velocity.getD (idxmax res.dedz) 0) ^ 2 / 4184000000000)
            (1/2 * res.mass.getD 0 0 * (res.velocity.getD 0 0) ^ 2 / 4184000000000 -
              1/2 * res.mass.getD (idxmax res.dedz) 0 *
                (res.velocity.getD (idxmax res.dedz) 0) ^ 2 / 4184000000000)) ∧
      (¬ idxmax res.dedz = res.dedz.length - 1 →
        (analyse_outcome res).burst_altitude = res.altitude.getD (idxmax res.dedz) 0 ∧
        (analyse_outcome res).burst_energy =
          1/2 * res.mass.getD 0 0 * (res.velocity.getD 0 0) ^ 2 / 4184000000000 -
            1/2 * res.mass.getD (idxmax res.dedz) 0 *
              (res.velocity.getD (idxmax res.dedz) 0) ^ 2 / 4184000000000) ∧
      (analyse_outcome res).burst_distance = res.distance.getD (idxmax res.dedz) 0 ∧
      (analyse_outcome res).burst_peak_dedz = res.dedz.getD (idxmax res.dedz) 0 := by
  intro res hne
  obtain ⟨x, xs, hx⟩ : ∃ x xs, res.dedz = x :: xs := by
    cases h : res.dedz with
    | nil => exact absurd h hne
    | cons a as => exact ⟨a, as, rfl⟩
  have hmaxval : res.dedz.getD (idxmax res.dedz) 0 = (argmaxFst x xs).2 := by
    rw [hx]
    simp only [idxmax]
    exact argmaxFst_getD x xs
  have hcrat : ("Cratering" : String) ≠ "Airburst" := by decide
  by_cases hc : idxmax res.dedz = res.dedz.length - 1
  · have hout : analyse_outcome res =
        { outcome := "Cratering"
          burst_peak_dedz := res.dedz.getD (idxmax res.dedz) 0
          burst_altitude := 0
          burst_distance := res.distance.getD (idxmax res.dedz) 0
          burst_energy :=
            max (1/2 * res.mass.getD (idxmax res.dedz) 0 *
                  (res.velocity.getD (idxmax res.dedz) 0) ^ 2 / 4184000000000)
              (1/2 * res.mass.getD 0 0 * (res.velocity.getD 0 0) ^ 2 / 4184000000000 -
                1/2 * res.mass.getD (idxmax res.dedz) 0 *
                  (res.velocity.getD (idxmax res.dedz) 0) ^ 2 / 4184000000000) } := by
      simp only [analyse_outcome]
      rw [if_pos hc]
    refine ⟨?_, ?_, ?_, ?_, ?_, ?_, ?_, ?_, ?_⟩
    · rw [hx]
      simp only [idxmax]
      simpa using argmaxFst_fst_lt x xs
    · intro k hk
      rw [hmaxval, hx]
      exact argmaxFst_le x xs k (by rw [hx] at hk; simpa using hk)
    · intro k hk
      rw [hmaxval, hx]
      refine argmaxFst_first x xs k ?_
      rw [hx] at hk
      simpa [idxmax] using hk
    · rw [hout]
      simpa using hc
    · rw [hout]
      simp only []
      constructor
      · intro habs
        exact absurd habs.symm hcrat.symm
      · intro habs
        exact absurd hc habs
    · intro _
      rw [hout]
      exact ⟨rfl, rfl⟩
    · intro habs
      exact absurd hc habs
    · rw [hout]
    · rw [hout, hmaxval]
  · have hout : analyse_outcome res =
        { outcome := "Airburst"
          burst_peak_dedz := res.dedz.getD (idxmax res.dedz) 0
          burst_altitude := res.altitude.getD (idxmax res.dedz) 0
          burst_distance := res.distance.getD (idxmax res.dedz) 0
          burst_energy :=
            1/2 * res.mass.getD 0 0 * (res.velocity.getD 0 0) ^ 2 / 4184000000000 -
              1/2 * res.mass.getD (idxmax res.dedz) 0 *
                (res.velocity.getD (idxmax res.dedz) 0) ^ 2 / 4184000000000 } := by
      simp only [analyse_outcome]
      rw [if_neg hc]
    refine ⟨?_, ?_, ?_, ?_, ?_, ?_, ?_, ?_, ?_⟩
    · rw [hx]
      simp only [idxmax]
      simpa using argmaxFst_fst_lt x xs
    · intro k hk
      rw [hmaxval, hx]
      exact argmaxFst_le x xs k (by rw [hx] at hk; simpa using hk)
    · intro k hk
      rw [hmaxval, hx]
      refine argmaxFst_first x xs k ?_
      rw [hx] at hk
      simpa [idxmax] using hk
    · rw [hout]
      simp only []
      constructor
      · intro habs
        exact absurd habs hcrat.symm
      · intro habs
        exact absurd habs hc
    · rw [hout]
      simpa using hc
    · intro habs
      exact absurd habs hc
    · intro _
      rw [hout]
      exact ⟨rfl, rfl⟩
    · rw [hout]
    · rw [hout, hmaxval]

/-- Witness for claim C2 on a concrete four-row energy profile whose `dedz`
peak (first occurrence of the maximum, at index 1) is not the last row:
an Airburst. -/
theorem analyse_outcome_spec_witness :
    idxmax ([1, 7, 7, 2] : List ℚ) < 4 ∧
    (analyse_outcome ⟨[10, 20, 30, 40], [2, 2, 2, 2], [0, 0, 0, 0],
        [9, 8, 7, 6], [0, 1, 2, 3], [1, 1, 1, 1], [0, 1, 2, 3],
        [1, 7, 7, 2]⟩).outcome = "Airburst" ∧
    (analyse_outcome ⟨[10, 20, 30, 40], [2, 2, 2, 2], [0, 0, 0, 0],
        [9, 8, 7, 6], [0, 1, 2, 3], [1, 1, 1, 1], [0, 1, 2, 3],
        [1, 7, 7, 2]⟩).burst_altitude = 8 := by
  have h := analyse_outcome_spec
    ⟨[10, 20, 30, 40], [2, 2, 2, 2], [0, 0, 0, 0], [9, 8, 7, 6],
      [0, 1, 2, 3], [1, 1, 1, 1], [0, 1, 2, 3], [1, 7, 7, 2]⟩
    (by simp)
  have hidx : idxmax ([1, 7, 7, 2] : List ℚ) = 1 := by
    norm_num [idxmax, argmaxFst]
  refine ⟨by rw [hidx]; norm_num, ?_, ?_⟩
  · exact (h.2.2.2.2.1).mpr (by simp [hidx])
  · have := h.2.2.2.2.2.2.1 (by simp [hidx])
    rw [this.1, hidx]
    norm_num [List.getD_cons_succ, List.getD_cons_zero]

/-! ### Loop lemmas shared by the solver claims -/

/-- `getLastD` of a cons with nonempty tail ignores the head. -/
theorem getLastD_cons_ne {α : Type} (a : α) (l : List α) (h : l ≠ []) (d : α) :
    (a :: l).getLastD d = l.getLastD d := by
  rw [List.getLastD_cons, List.getLastD_eq_getLast?, List.getLastD_eq_getLast?,
    List.getLast?_eq_getLast l h]
  simp

/-- `dropLast` of a cons with nonempty tail keeps the head. -/
theorem dropLast_cons_ne {α : Type} (a : α) (l : List α) (h : l ≠ []) :
    (a :: l).dropLast = a :: l.dropLast := by
  cases l with
  | nil => exact absurd rfl h
  | cons b bs => simp

/-- Soundness of the stepping loop: when it returns, the appended rows are
nonempty, the last appended row (the terminating one) satisfies the stopping
policy, and no earlier appended row does. -/
theorem entryLoop_sound (step : SVec → ℤ → ℤ → SVec × ℤ) (z0 dt : ℚ) :
    ∀ (fuel : Nat) (row : Row) (bp len : ℤ) (rest : List Row) (bpf : ℤ),
      entryLoop step z0 dt fuel row bp len = some (rest, bpf) →
      rest ≠ [] ∧ stopCond z0 (rest.getLastD default).s = true ∧
        ∀ q ∈ rest.dropLast, stopCond z0 q.s = false := by
  intro fuel
  induction fuel with
  | zero =>
    intro row bp len rest bpf h
    exact absurd h (by simp [entryLoop])
  | succ fuel ih =>
    intro row bp len rest bpf h
    simp only [entryLoop] at h
    by_cases hstop : stopCond z0 (step row.s bp len).1 = true
    · rw [if_pos hstop] at h
      have hh := Option.some.inj h
      have hrest : rest = [⟨(step row.s bp len).1, row.t + dt⟩] :=
        (congrArg Prod.fst hh).symm
      subst hrest
      refine ⟨by simp, ?_, by simp⟩
      simpa [List.getLastD] using hstop
    · rw [if_neg hstop] at h
      cases heq : entryLoop step z0 dt fuel ⟨(step row.s bp len).1, row.t + dt⟩
          (step row.s bp len).2 (len + 1) with
      | none =>
        rw [heq] at h
        exact absurd h (by simp)
      | some rb =>
        obtain ⟨rest', bpf'⟩ := rb
        rw [heq] at h
        have hh := Option.some.inj h
        have hrest : rest = ⟨(step row.s bp len).1, row.t + dt⟩ :: rest' :=
          (congrArg Prod.fst hh).symm
        subst hrest
        obtain ⟨hne', hlast', hmid'⟩ := ih _ _ _ _ _ heq
        refine ⟨by simp, ?_, ?_⟩
        · rw [getLastD_cons_ne _ _ hne']
          exact hlast'
        · intro q hq
          rw [dropLast_cons_ne _ _ hne'] at hq
          rcases List.mem_cons.mp hq with hq | hq
          · subst hq
            exact eq_false_of_ne_true hstop
          · exact hmid' q hq

/-! ### Claim C3 -/

/-- Claim C3: whenever the solver loop terminates, the series returned by
`solve_atmospheric_entry` is the accumulated rows without the terminating
one; the state immediately following the returned series' last row (the
terminating row, `rows.getLastD`) satisfies
`altitude <= 0 or mass <= 0 or radius <= 0 or velocity <= 0 or
altitude >= init_altitude`, and no intermediate appended row before it
satisfies any of these conditions. -/
theorem solve_run_stop_spec :
    ∀ (pl : Planet) (nf : NumFuns)
      (radius velocity density strength angle0 z0 dt : ℚ)
      (radians : Bool) (backend : String) (fuel : Nat)
      (rows : List Row) (bp : ℤ),
      solve_run pl nf radius velocity density strength angle0 z0 dt
          radians backend fuel = some (rows, bp) →
      solve_atmospheric_entry pl nf radius velocity density strength angle0 z0 dt
          radians backend fuel = some (mkDF nf radians rows) ∧
      stopCond z0 (rows.getLastD default).s = true ∧
      ∀ q ∈ rows.tail.dropLast, stopCond z0 q.s = false := by
  intro pl nf radius velocity density strength angle0 z0 dt radians backend fuel rows bp h
  refine ⟨?_, ?_⟩
  · unfold solve_atmospheric_entry
    rw [h]
    rfl
  · simp only [solve_run] at h
    rcases Option.map_eq_some'.mp h with ⟨⟨rest, bpf⟩, heq, hmk⟩
    have hrows : rows = ⟨⟨(if radians then angle0 else angle0 / 180 * nf.pi),
        radius, z0, velocity, 4/3 * nf.pi * radius ^ 3 * density, 0⟩, 0⟩ :: rest :=
      (congrArg Prod.fst hmk).symm
    obtain ⟨hne, hlast, hmid⟩ := entryLoop_sound _ z0 dt fuel _ _ _ _ _ heq
    subst hrows
    constructor
    · rw [getLastD_cons_ne _ _ hne]
      exact hlast
    · intro q hq
      exact hmid q (by simpa using hq)

/-- Witness for claim C3: a concrete forward-Euler run that terminates after
one step (altitude drops from 10 to -90). -/
theorem solve_run_stop_spec_witness :
    solve_atmospheric_entry ⟨0, 0, 1, 0, 1, 1, 1, 1, 1, fun _ => 1⟩
        ⟨3, fun _ => 0, fun _ => 1, fun _ => 0, fun _ => 1⟩
        1 100 3 1000000000 5 10 1 true "FE" 3 =
      some (mkDF ⟨3, fun _ => 0, fun _ => 1, fun _ => 0, fun _ => 1⟩ true
        [⟨⟨5, 1, 10, 100, 12, 0⟩, 0⟩, ⟨⟨5, 1, -90, 101, 12, 0⟩, 1⟩]) ∧
    stopCond 10 (([⟨⟨5, 1, 10, 100, 12, 0⟩, 0⟩,
        ⟨⟨5, 1, -90, 101, 12, 0⟩, 1⟩] : List Row).getLastD default).s = true ∧
    ∀ q ∈ ([⟨⟨5, 1, 10, 100, 12, 0⟩, 0⟩,
        ⟨⟨5, 1, -90, 101, 12, 0⟩, 1⟩] : List Row).tail.dropLast,
      stopCond 10 q.s = false :=
  solve_run_stop_spec ⟨0, 0, 1, 0, 1, 1, 1, 1, 1, fun _ => 1⟩
    ⟨3, fun _ => 0, fun _ => 1, fun _ => 0, fun _ => 1⟩
    1 100 3 1000000000 5 10 1 true "FE" 3
    [⟨⟨5, 1, 10, 100, 12, 0⟩, 0⟩, ⟨⟨5, 1, -90, 101, 12, 0⟩, 1⟩] (-1)
    (by norm_num [solve_run, selectBackend, entryLoop, stepFE, calculator_rk4,
      SVec.scale, stopCond, Prod.ext_iff, SVec.mk.injEq, Row.mk.injEq])

/-! ### Claim C9 -/

/-- Claim C9: whenever the solver loop terminates, the returned series is
non-empty and its first row is the initial state: velocity and radius as
input, mass `4/3*pi*radius^3*density`, altitude `init_altitude`, distance 0,
time 0, and angle equal to the input angle in the input's units (the
degrees-to-radians-to-degrees round trip is exact for `pi` nonzero). -/
theorem solve_first_row_spec :
    ∀ (pl : Planet) (nf : NumFuns)
      (radius velocity density strength angle0 z0 dt : ℚ)
      (radians : Bool) (backend : String) (fuel : Nat)
      (rows : List Row) (bp : ℤ),
      nf.pi ≠ 0 →
      solve_run pl nf radius velocity density strength angle0 z0 dt
          radians backend fuel = some (rows, bp) →
      solve_atmospheric_entry pl nf radius velocity density strength angle0 z0 dt
          radians backend fuel = some (mkDF nf radians rows) ∧
      (mkDF nf radians rows).velocity ≠ [] ∧
      (mkDF nf radians rows).velocity.getD 0 0 = velocity ∧
      (mkDF nf radians rows).mass.getD 0 0 = 4/3 * nf.pi * radius ^ 3 * density ∧
      (mkDF nf radians rows).angle.getD 0 0 = angle0 ∧
      (mkDF nf radians rows).altitude.getD 0 0 = z0 ∧
      (mkDF nf radians rows).distance.getD 0 0 = 0 ∧
      (mkDF nf radians rows).radius.getD 0 0 = radius ∧
      (mkDF nf radians rows).time.getD 0 0 = 0 := by
  intro pl nf radius velocity density strength angle0 z0 dt radians backend fuel rows bp hpi h
  have hsolve : solve_atmospheric_entry pl nf radius velocity density strength angle0 z0 dt
      radians backend fuel = some (mkDF nf radians rows) := by
    unfold solve_atmospheric_entry
    rw [h]
    rfl
  simp only [solve_run] at h
  rcases Option.map_eq_some'.mp h with ⟨⟨rest, bpf⟩, heq, hmk⟩
  have hrows : rows = ⟨⟨(if radians then angle0 else angle0 / 180 * nf.pi),
      radius, z0, velocity, 4/3 * nf.pi * radius ^ 3 * density, 0⟩, 0⟩ :: rest :=
    (congrArg Prod.fst hmk).symm
  obtain ⟨hne, -, -⟩ := entryLoop_sound _ z0 dt fuel _ _ _ _ _ heq
  subst hrows
  have hkept : (⟨⟨(if radians then angle0 else angle0 / 180 * nf.pi),
      radius, z0, velocity, 4/3 * nf.pi * radius ^ 3 * density, 0⟩, 0⟩ :: rest).dropLast =
      ⟨⟨(if radians then angle0 else angle0 / 180 * nf.pi),
        radius, z0, velocity, 4/3 * nf.pi * radius ^ 3 * density, 0⟩, 0⟩ :: rest.dropLast :=
    dropLast_cons_ne _ _ hne
  refine ⟨hsolve, ?_, ?_, ?_, ?_, ?_, ?_, ?_, ?_⟩
  · simp only [mkDF]
    rw [hkept]
    simp
  · simp only [mkDF]
    rw [hkept, List.map_cons, List.getD_cons_zero]
  · simp only [mkDF]
    rw [hkept, List.map_cons, List.getD_cons_zero]
  · simp only [mkDF]
    rw [hkept, List.map_cons, List.getD_cons_zero]
    cases radians with
    | true => simp
    | false =>
      simp only [Bool.false_eq_true, if_false]
      field_simp
      ring
  · simp only [mkDF]
    rw [hkept, List.map_cons, List.getD_cons_zero]
  · simp only [mkDF]
    rw [hkept, List.map_cons, List.getD_cons_zero]
  · simp only [mkDF]
    rw [hkept, List.map_cons, List.getD_cons_zero]
  · simp only [mkDF]
    rw [hkept, List.map_cons, List.getD_cons_zero]

/-- Witness for claim C9: a concrete degree-input forward-Euler run; the
input angle 90 degrees is converted to 3/2 internally (with `pi = 3`) and
recovered exactly in the first returned row. -/
theorem solve_first_row_spec_witness :
    solve_atmospheric_entry ⟨0, 0, 1, 0, 1, 1, 1, 1, 1, fun _ => 1⟩
        ⟨3, fun _ => 0, fun _ => 1, fun _ => 0, fun _ => 1⟩
        1 100 3 1000000000 90 10 1 false "FE" 3 =
      some (mkDF ⟨3, fun _ => 0, fun _ => 1, fun _ => 0, fun _ => 1⟩ false
        [⟨⟨3/2, 1, 10, 100, 12, 0⟩, 0⟩, ⟨⟨3/2, 1, -90, 101, 12, 0⟩, 1⟩]) ∧
    (mkDF ⟨3, fun _ => 0, fun _ => 1, fun _ => 0, fun _ => 1⟩ false
        [⟨⟨3/2, 1, 10, 100, 12, 0⟩, 0⟩, ⟨⟨3/2, 1, -90, 101, 12, 0⟩, 1⟩]).velocity ≠ [] ∧
    (mkDF ⟨3, fun _ => 0, fun _ => 1, fun _ => 0, fun _ => 1⟩ false
        [⟨⟨3/2, 1, 10, 100, 12, 0⟩, 0⟩, ⟨⟨3/2, 1, -90, 101, 12, 0⟩, 1⟩]).velocity.getD 0 0 = 100 ∧
    (mkDF ⟨3, fun _ => 0, fun _ => 1, fun _ => 0, fun _ => 1⟩ false
        [⟨⟨3/2, 1, 10, 100, 12, 0⟩, 0⟩, ⟨⟨3/2, 1, -90, 101, 12, 0⟩, 1⟩]).mass.getD 0 0 =
      4/3 * 3 * 1 ^ 3 * 3 ∧
    (mkDF ⟨3, fun _ => 0, fun _ => 1, fun _ => 0, fun _ => 1⟩ false
        [⟨⟨3/2, 1, 10, 100, 12, 0⟩, 0⟩, ⟨⟨3/2, 1, -90, 101, 12, 0⟩, 1⟩]).angle.getD 0 0 = 90 ∧
    (mkDF ⟨3, fun _ => 0, fun _ => 1, fun _ => 0, fun _ => 1⟩ false
        [⟨⟨3/2, 1, 10, 100, 12, 0⟩, 0⟩, ⟨⟨3/2, 1, -90, 101, 12, 0⟩, 1⟩]).altitude.getD 0 0 = 10 ∧
    (mkDF ⟨3, fun _ => 0, fun _ => 1, fun _ => 0, fun _ => 1⟩ false
        [⟨⟨3/2, 1, 10, 100, 12, 0⟩, 0⟩, ⟨⟨3/2, 1, -90, 101, 12, 0⟩, 1⟩]).distance.getD 0 0 = 0 ∧
    (mkDF ⟨3, fun _ => 0, fun _ => 1, fun _ => 0, fun _ => 1⟩ false
        [⟨⟨3/2, 1, 10, 100, 12, 0⟩, 0⟩, ⟨⟨3/2, 1, -90, 101, 12, 0⟩, 1⟩]).radius.getD 0 0 = 1 ∧
    (mkDF ⟨3, fun _ => 0, fun _ => 1, fun _ => 0, fun _ => 1⟩ false
        [⟨⟨3/2, 1, 10, 100, 12, 0⟩, 0⟩, ⟨⟨3/2, 1, -90, 101, 12, 0⟩, 1⟩]).time.getD 0 0 = 0 :=
  solve_first_row_spec ⟨0, 0, 1, 0, 1, 1, 1, 1, 1, fun _ => 1⟩
    ⟨3, fun _ => 0, fun _ => 1, fun _ => 0, fun _ => 1⟩
    1 100 3 1000000000 90 10 1 false "FE" 3
    [⟨⟨3/2, 1, 10, 100, 12, 0⟩, 0⟩, ⟨⟨3/2, 1, -90, 101, 12, 0⟩, 1⟩] (-1)
    (by norm_num)
    (by norm_num [solve_run, selectBackend, entryLoop, stepFE, calculator_rk4,
      SVec.scale, stopCond, Prod.ext_iff, SVec.mk.injEq, Row.mk.injEq])

/-! ### Claim C7 -/

/-- The mass derivative produced by the calculator, identical in both branches
of the fragmentation test: `-Ch * rho_air * area * v^3 / (2*Q)`. -/
theorem calculator_rk4_m (c : Sim) (s : SVec) (bp len : ℤ) :
    (calculator_rk4 c s bp len).1.m =
      -c.pl.Ch * (c.pl.rhoa s.z * (c.nf.pi * s.r ^ 2) * s.v) * s.v ^ 2 /
        (2 * c.pl.Q) := by
  simp only [calculator_rk4]
  split <;> rfl

/-- A state that does not trigger the stopping policy has positive altitude,
mass, radius, velocity, and altitude strictly below the initial one. -/
theorem stopCond_false (z0 : ℚ) (s : SVec) (h : stopCond z0 s = false) :
    0 < s.z ∧ 0 < s.m ∧ 0 < s.r ∧ 0 < s.v ∧ s.z < z0 := by
  simp only [stopCond, Bool.or_eq_false_iff, decide_eq_false_iff_not] at h
  exact ⟨not_le.mp h.1.1.1.1, not_le.mp h.1.1.1.2, not_le.mp h.1.1.2,
    not_le.mp h.1.2, not_le.mp h.2⟩

/-- One forward-Euler step can only decrease the mass, provided the current
velocity is positive and the ablation constants and atmosphere are
nonnegative. -/
theorem stepFE_mass_le (c : Sim) (dt : ℚ) (s : SVec) (bp len : ℤ)
    (hCh : 0 ≤ c.pl.Ch) (hQ : 0 < c.pl.Q) (hpi : 0 ≤ c.nf.pi)
    (hrho : ∀ z, 0 ≤ c.pl.rhoa z) (hdt : 0 ≤ dt) (hv : 0 < s.v) :
    (stepFE c dt s bp len).1.m ≤ s.m := by
  have hm : (stepFE c dt s bp len).1.m =
      s.m + dt * (calculator_rk4 c s bp len).1.m := by
    simp [stepFE]
  rw [hm, calculator_rk4_m]
  have hnum : 0 ≤ c.pl.Ch * (c.pl.rhoa s.z * (c.nf.pi * s.r ^ 2) * s.v) * s.v ^ 2 :=
    mul_nonneg (mul_nonneg hCh (mul_nonneg
      (mul_nonneg (hrho s.z) (mul_nonneg hpi (sq_nonneg s.r))) hv.le)) (sq_nonneg s.v)
  have hdm : -c.pl.Ch * (c.pl.rhoa s.z * (c.nf.pi * s.r ^ 2) * s.v) * s.v ^ 2 /
      (2 * c.pl.Q) ≤ 0 := by
    rw [div_le_iff₀ (by linarith : (0:ℚ) < 2 * c.pl.Q)]
    nlinarith [hnum]
  nlinarith [mul_nonneg hdt (neg_nonneg.mpr hdm)]

/-- Along a terminating forward-Euler run started from a state with positive
velocity, consecutive accumulated rows have non-increasing mass. -/
theorem entryLoop_FE_chain (c : Sim) (z0 dt : ℚ)
    (hCh : 0 ≤ c.pl.Ch) (hQ : 0 < c.pl.Q) (hpi : 0 ≤ c.nf.pi)
    (hrho : ∀ z, 0 ≤ c.pl.rhoa z) (hdt : 0 ≤ dt) :
    ∀ (fuel : Nat) (row : Row) (bp len : ℤ) (rest : List Row) (bpf : ℤ),
      0 < row.s.v →
      entryLoop (stepFE c dt) z0 dt fuel row bp len = some (rest, bpf) →
      List.Chain (fun a b => b.s.m ≤ a.s.m) row rest := by
  intro fuel
  induction fuel with
  | zero =>
    intro row bp len rest bpf hv h
    exact absurd h (by simp [entryLoop])
  | succ fuel ih =>
    intro row bp len rest bpf hv h
    simp only [entryLoop] at h
    by_cases hstop : stopCond z0 (stepFE c dt row.s bp len).1 = true
    · rw [if_pos hstop] at h
      have hh := Option.some.inj h
      have hrest : rest = [⟨(stepFE c dt row.s bp len).1, row.t + dt⟩] :=
        (congrArg Prod.fst hh).symm
      subst hrest
      exact List.Chain.cons (stepFE_mass_le c dt row.s bp len hCh hQ hpi hrho hdt hv)
        List.Chain.nil
    · rw [if_neg hstop] at h
      cases heq : entryLoop (stepFE c dt) z0 dt fuel
          ⟨(stepFE c dt row.s bp len).1, row.t + dt⟩
          (stepFE c dt row.s bp len).2 (len + 1) with
      | none =>
        rw [heq] at h
        exact absurd h (by simp)
      | some rb =>
        obtain ⟨rest', bpf'⟩ := rb
        rw [heq] at h
        have hh := Option.some.inj h
        have hrest : rest = ⟨(stepFE c dt row.s bp len).1, row.t + dt⟩ :: rest' :=
          (congrArg Prod.fst hh).symm
        subst hrest
        have hv' : 0 < (stepFE c dt row.s bp len).1.v :=
          (stopCond_false z0 _ (eq_false_of_ne_true hstop)).2.2.2.1
        exact List.Chain.cons
          (stepFE_mass_le c dt row.s bp len hCh hQ hpi hrho hdt hv)
          (ih _ _ _ _ _ hv' heq)

/-- Claim C7 (amended): with the forward-Euler backend `"FE"`, for every
terminating run with positive entry velocity, nonnegative ablation constants
(`Ch >= 0`, `Q > 0`, `pi >= 0`), a nonnegative atmospheric-density function
(which covers the exponential and constant atmospheres), and nonnegative
timestep, mass is non-increasing along the returned trajectory.  (The
original claim, which also covers the default RK4 backend, is refuted by
`solve_rk4_mass_increases_cex`.) -/
theorem solve_FE_mass_nonincreasing :
    ∀ (pl : Planet) (nf : NumFuns)
      (radius velocity density strength angle0 z0 dt : ℚ)
      (radians : Bool) (fuel : Nat) (rows : List Row) (bp : ℤ),
      0 ≤ pl.Ch → 0 < pl.Q → 0 ≤ nf.pi → (∀ z, 0 ≤ pl.rhoa z) → 0 ≤ dt →
      0 < velocity →
      solve_run pl nf radius velocity density strength angle0 z0 dt
          radians "FE" fuel = some (rows, bp) →
      ∀ i : Nat, i + 1 < (mkDF nf radians rows).mass.length →
        (mkDF nf radians rows).mass.getD (i + 1) 0 ≤
          (mkDF nf radians rows).mass.getD i 0 := by
  intro pl nf radius velocity density strength angle0 z0 dt radians fuel rows bp
    hCh hQ hpi hrho hdt hv h i hi
  simp only [solve_run] at h
  rcases Option.map_eq_some'.mp h with ⟨⟨rest, bpf⟩, heq, hmk⟩
  have hrows : rows = ⟨⟨(if radians then angle0 else angle0 / 180 * nf.pi),
      radius, z0, velocity, 4/3 * nf.pi * radius ^ 3 * density, 0⟩, 0⟩ :: rest :=
    (congrArg Prod.fst hmk).symm
  have hsel : (selectBackend "FE").1 = stepFE := rfl
  rw [hsel] at heq
  have hchain := entryLoop_FE_chain ⟨pl, nf, strength, density⟩ z0 dt
    hCh hQ hpi hrho hdt fuel _ (-1) 1 rest bpf hv heq
  have hchain' : List.Chain' (fun a b : Row => b.s.m ≤ a.s.m) rows := by
    rw [hrows]
    exact hchain
  have hmlen : (mkDF nf radians rows).mass.length = rows.dropLast.length := by
    simp [mkDF]
  have hi1 : i + 1 < rows.dropLast.length := by
    rw [hmlen] at hi
    exact hi
  have hi1' : i + 1 < rows.length := by
    rw [List.length_dropLast] at hi1
    omega
  have hgd : ∀ j : Nat, j < rows.dropLast.length →
      (mkDF nf radians rows).mass.getD j 0 = (rows.getD j default).s.m := by
    intro j hj
    have hjr : j < rows.length := by
      rw [List.length_dropLast] at hj
      omega
    have hj' : j < (mkDF nf radians rows).mass.length := by
      rw [hmlen]
      exact hj
    rw [List.getD_eq_getElem _ _ hj']
    simp only [mkDF]
    rw [List.getElem_map, List.getElem_dropLast, List.getD_eq_getElem _ _ hjr]
  rw [hgd (i + 1) hi1, hgd i (by omega)]
  rw [List.getD_eq_getElem _ _ hi1',
    List.getD_eq_getElem _ _ (by omega : i < rows.length)]
  have hc := List.chain'_iff_get.mp hchain' i (by
    rw [List.length_dropLast] at hi1
    omega)
  simpa [List.get_eq_getElem] using hc

/-- Witness for the amended claim C7: a concrete three-step forward-Euler run
(`Ch = 1/1000`) whose returned masses are `400, 398.5, 396.5035`; the first
two returned rows satisfy the non-increase. -/
theorem solve_FE_mass_nonincreasing_witness :
    (mkDF ⟨3, fun _ => 0, fun _ => 1, fun _ => 0, fun _ => 1⟩ true
        [⟨⟨0, 1, 25, 10, 400, 0⟩, 0⟩, ⟨⟨0, 1, 15, 11, 797/2, 0⟩, 1⟩,
         ⟨⟨0, 1, 4, 12, 793007/2000, 0⟩, 2⟩,
         ⟨⟨0, 1, -8, 13, 787823/2000, 0⟩, 3⟩]).mass.getD 1 0 ≤
      (mkDF ⟨3, fun _ => 0, fun _ => 1, fun _ => 0, fun _ => 1⟩ true
        [⟨⟨0, 1, 25, 10, 400, 0⟩, 0⟩, ⟨⟨0, 1, 15, 11, 797/2, 0⟩, 1⟩,
         ⟨⟨0, 1, 4, 12, 793007/2000, 0⟩, 2⟩,
         ⟨⟨0, 1, -8, 13, 787823/2000, 0⟩, 3⟩]).mass.getD 0 0 :=
  solve_FE_mass_nonincreasing ⟨0, 1/1000, 1, 0, 1, 1, 1, 1, 1, fun _ => 1⟩
    ⟨3, fun _ => 0, fun _ => 1, fun _ => 0, fun _ => 1⟩
    1 10 100 1000000 0 25 1 true 5
    [⟨⟨0, 1, 25, 10, 400, 0⟩, 0⟩, ⟨⟨0, 1, 15, 11, 797/2, 0⟩, 1⟩,
     ⟨⟨0, 1, 4, 12, 793007/2000, 0⟩, 2⟩,
     ⟨⟨0, 1, -8, 13, 787823/2000, 0⟩, 3⟩] (-1)
    (by norm_num) (by norm_num) (by norm_num) (fun z => by norm_num)
    (by norm_num) (by norm_num)
    (by norm_num [solve_run, selectBackend, entryLoop, stepFE, calculator_rk4,
      SVec.scale, stopCond, Prod.ext_iff, SVec.mk.injEq, Row.mk.injEq])
    0 (by norm_num [mkDF])

/-- The planet used by the RK4 mass-increase counterexample: `Cd = 6`,
`Ch = 2`, `Q = 1`, `Cl = 0`, and the constant atmosphere `rhoa = rho0 = 1`. -/
def c7pl : Planet := ⟨6, 2, 1, 0, 1, 1000000, 2, 1, 1, fun _ => 1⟩

/-- Numeric functions for the counterexample run: `pi` is the exact value of
the double `np.pi`, and the trajectory angle is held at a point where the
sine is 1 and the cosine 0 (with `Cl = 0` the angle never moves), so the
constant functions agree with the real cosine and sine everywhere the run
evaluates them. -/
def c7nf : NumFuns :=
  ⟨884279719003555/281474976710656, fun _ => 0, fun _ => 1, fun _ => 0, fun _ => 1⟩

/-- The terminating state of the counterexample run (altitude has gone
negative, so the stopping policy fires and this row is dropped from the
returned series). -/
def c7s2 : SVec :=
  ⟨0, 1,
    -219584519227494000773873492094538246771073607506527/366985129489019871664528956964508100183515812200012,
    44393663915682777605304622038335510711401670997549400837745964016136494826925685560530567310275203986447394608322028612555995/45161319453563580659330451759965359989339257670638034613092784390307834247925986065512133250087105483784955948252775009324519,
    -1497118081465463590138030222584766908298420622128756114870143374755642541721473971546111379029209136731497365343009394461100811114899347794735563759303361054507211842615/13911859786401420789209278913325755442696243187801765553986015439824221002704241482284815817573975092550550328983873497657644076025882942858381636844236055634738413568,
    0⟩

set_option maxHeartbeats 6400000 in
/-- Claim C7 counterexample: a valid scenario (radius 1, velocity 1,
density 3/4, strength 10^6, initial altitude 1/2, timestep 1) solved with the
constant atmosphere and the default RK4 backend returns a two-row series
whose mass increases from `pi` to `pi * 283/192`: the drag overshoot makes
the intermediate RK4 stages evaluate the ablation term at negative
velocities, so the claim that mass is non-increasing along the returned
trajectory is false for the RK4 backend. -/
theorem solve_rk4_mass_increases_cex :
    solve_atmospheric_entry c7pl c7nf 1 1 (3/4) 1000000 0 (1/2) 1 true "RK4" 10 =
      some ⟨[1, 445/183],
            [884279719003555/281474976710656, 250251160478006065/54043195528445952],
            [0, 0], [1/2, 1/12], [0, 0], [1, 1], [0, 1]⟩ ∧
    ¬ ((250251160478006065/54043195528445952 : ℚ) ≤
        884279719003555/281474976710656) := by
  have hstep1 : stepRK4 ⟨c7pl, c7nf, 1000000, 3/4⟩ 1
      ⟨0, 1, 1/2, 1, 884279719003555/281474976710656, 0⟩ (-1) 1 =
      (⟨0, 1, 1/12, 445/183, 250251160478006065/54043195528445952, 0⟩, -1) := by
    norm_num [stepRK4, RK4_helper, calculator_rk4, SVec.scale, SVec.add_def,
      SVec.mk.injEq, Prod.ext_iff, c7pl, c7nf]
  have hstep2 : stepRK4 ⟨c7pl, c7nf, 1000000, 3/4⟩ 1
      ⟨0, 1, 1/12, 445/183, 250251160478006065/54043195528445952, 0⟩ (-1) 2 =
      (c7s2, -1) := by
    norm_num [stepRK4, RK4_helper, calculator_rk4, SVec.scale, SVec.add_def,
      SVec.mk.injEq, Prod.ext_iff, c7pl, c7nf, c7s2]
  have hstop1 : ¬ (stopCond (1/2)
      (⟨0, 1, 1/12, 445/183, 250251160478006065/54043195528445952, 0⟩ : SVec) = true) := by
    norm_num [stopCond]
  have hstop2 : stopCond (1/2) c7s2 = true := by
    norm_num [stopCond, c7s2]
  have h9 : entryLoop (stepRK4 ⟨c7pl, c7nf, 1000000, 3/4⟩ 1) (1/2) 1 9
      ⟨⟨0, 1, 1/12, 445/183, 250251160478006065/54043195528445952, 0⟩, 1⟩ (-1) 2 =
      some ([⟨c7s2, 2⟩], -1) := by
    rw [show (9:Nat) = Nat.succ 8 from rfl, entryLoop.eq_2, hstep2, if_pos hstop2,
      show ((1:ℚ) + 1) = 2 by norm_num]
  have h10 : entryLoop (stepRK4 ⟨c7pl, c7nf, 1000000, 3/4⟩ 1) (1/2) 1 10
      ⟨⟨0, 1, 1/2, 1, 884279719003555/281474976710656, 0⟩, 0⟩ (-1) 1 =
      some ([⟨⟨0, 1, 1/12, 445/183, 250251160478006065/54043195528445952, 0⟩, 1⟩,
             ⟨c7s2, 2⟩], -1) := by
    rw [show (10:Nat) = Nat.succ 9 from rfl, entryLoop.eq_2, hstep1, if_neg hstop1,
      show ((0:ℚ) + 1) = 1 by norm_num, show ((1:ℤ) + 1) = 2 by norm_num, h9]
  have hrun : solve_run c7pl c7nf 1 1 (3/4) 1000000 0 (1/2) 1 true "RK4" 10 =
      some ([⟨⟨0, 1, 1/2, 1, 884279719003555/281474976710656, 0⟩, 0⟩,
             ⟨⟨0, 1, 1/12, 445/183, 250251160478006065/54043195528445952, 0⟩, 1⟩,
             ⟨c7s2, 2⟩], -1) := by
    simp only [solve_run, if_true]
    rw [show (4:ℚ)/3 * c7nf.pi * 1 ^ 3 * (3/4) = 884279719003555/281474976710656 by
        norm_num [c7nf],
      show (selectBackend "RK4").1 = stepRK4 from rfl, h10]
    rfl
  constructor
  · simp only [solve_atmospheric_entry]
    rw [hrun]
    norm_num [mkDF, c7s2, DataFrame.mk.injEq]
  · norm_num

/-- Witness for claim C8 on a concrete evaluation trace: an already-set burst
point 5 survives a further exceeding evaluation, and folding from the
sentinel over `[(0,5), (2,7), (3,9)]` with strength 1 yields 7, the `len`
of the first exceeding evaluation. -/
theorem burstpoint_set_once_witness :
    burstUpdate 1 2 9 5 = 5 ∧
    List.foldl (fun b e => burstUpdate 1 e.1 e.2 b) (-1)
      [((0:ℚ), (5:ℤ)), (2, 7), (3, 9)] = 7 :=
  ⟨burstpoint_set_once.1 1 2 9 5 (by decide),
    (burstpoint_set_once.2.2 1 [((0:ℚ), (5:ℤ)), (2, 7), (3, 9)]
        (by norm_num)).trans
      (by norm_num [firstExceed, List.find?])⟩
